import Mathlib

/-!
Shallow embedding of `cmd/diode/bns.go` from `diode_go_client`.

The file models the BNS command handlers (`isValidBNS`, `bnsHandler`,
`handleLookup`, `handleRegister`, `handleTransfer`, `handleUnregister`,
`wait`) as pure Lean functions.  External collaborators (the RPC client,
`util.DecodeAddress`, `contract.NewBNSContract`, `app.Start`) are modelled
as an explicit environment record `Env`: each Go call returning
`(value, err)` becomes a field returning a pair of the value and an error
flag, matching Go's multiple-return convention.  Every network call a
handler performs is recorded in an event trace, so that claims about
"zero submissions" or "no network access" become statements about the
trace.  Strings are modelled as lists of characters; `strings.ToLower`
is modelled for ASCII input (the only characters the BNS name pattern
can accept).
-/

/-- Strings, modelled as lists of characters (Go `string`). -/
abbrev Str := List Char

/-- ASCII lowercasing of one character, as done by `strings.ToLower`
for ASCII input: an uppercase letter (code 65..90) is shifted by 32,
every other character is unchanged. -/
def lowerChar (c : Char) : Char :=
  if 65 ≤ c.toNat ∧ c.toNat ≤ 90 then Char.ofNat (c.toNat + 32) else c

/-- `strings.ToLower` on an ASCII string: lowercase every character. -/
def asciiToLower (s : Str) : Str := s.map lowerChar

/-- One character of the BNS name character class `[0-9a-z-]`
(from the regular expression `bnsPattern`). -/
def isNameChar (c : Char) : Bool :=
  (decide ('0' ≤ c) && decide (c ≤ '9')) ||
  (decide ('a' ≤ c) && decide (c ≤ 'z')) ||
  (c == '-')

/-- The regular expression `^[0-9a-z-]+$` from `bnsPattern`:
a nonempty string all of whose characters are in the class. -/
def bnsPatternMatches (s : Str) : Bool :=
  !s.isEmpty && s.all isNameChar

/-- `isValidBNS` from bns.go: length must be in `[7, 32]` and the
string must match `bnsPattern`. -/
def isValidBNS (name : Str) : Bool :=
  if name.length < 7 ∨ name.length > 32 then false
  else bnsPatternMatches name

/-- `strings.Split s "="` for the one-character separator `=`
(Go semantics: splitting the empty string yields `[""]`). -/
def splitEq : Str → List Str
  | [] => [[]]
  | c :: cs =>
    if c = '=' then [] :: splitEq cs
    else
      match splitEq cs with
      | [] => [[c]]
      | p :: ps => (c :: p) :: ps

/-- Inverse of `splitEq`: interleave the parts with `=`. -/
def joinEq : List Str → Str
  | [] => []
  | [p] => p
  | p :: ps => p ++ '=' :: joinEq ps

/-- A 20-byte address (`util.Address`, Go `[20]byte`). -/
abbrev Address := { l : List (Fin 256) // l.length = 20 }

/-- The all-zero sentinel address (`[20]byte{}` in Go), meaning
"no owner / name is free". -/
def sentinelAddress : Address := ⟨List.replicate 20 0, by simp⟩

/-- An address all of whose bytes are `b`; used to build concrete inputs. -/
def constAddress (b : Fin 256) : Address := ⟨List.replicate 20 b, by simp⟩

/-- The contract call payload carried by a transaction
(`bnsContract.Register` / `.Transfer` / `.Unregister` encodings,
kept symbolic). -/
inductive CallData where
  | register (name : Str) (addr : Address)
  | transferOwner (name : Str) (newOwner : Address)
  | unregister (name : Str)
deriving DecidableEq

/-- A transaction as built by `edge.NewTransaction(nonce, 0, 10000000,
contract.BNSAddr, 0, data, 0)`: only the nonce and the payload vary. -/
structure Transaction where
  nonce : Nat
  data : CallData
deriving DecidableEq

/-- Network interactions a handler can perform, in trace order. -/
inductive NetEvent where
  | appStart
  | getBlockPeak
  | getNonce
  | resolveBNS (name : Str)
  | resolveBNSOwner (name : Str)
  | sendTransaction (tx : Transaction)
deriving DecidableEq

/-- The confirmation predicate passed to `wait` by each mutation,
kept symbolic: register waits for `ResolveBNS name = addr`, transfer
for `ResolveBNSOwner name = newOwner`, unregister for
`ResolveBNSOwner name = sentinel`. -/
inductive WaitCond where
  | registerCond (name : Str) (addr : Address)
  | transferCond (name : Str) (newOwner : Address)
  | unregisterCond (name : Str)
deriving DecidableEq

/-- Terminal path taken by a handler, one constructor per distinct
exit point of the Go code. -/
inductive Outcome where
  /-- `done = false`: the handler's input was not supplied. -/
  | notApplicable
  /-- `app.Start()` failed. -/
  | startError
  /-- `GetBlockPeak` returned 0 ("Cannot find block peak"). -/
  | blockPeakError
  /-- the final "Argument Error" of `bnsHandler`: no operation given. -/
  | argumentError
  /-- `contract.NewBNSContract()` failed. -/
  | contractError
  /-- "Argument Error: BNS name should be more than 7 or less than 32
  characters" — `isValidBNS` rejected the name. -/
  | invalidName
  /-- `util.DecodeAddress` failed ("Invalid diode address" /
  "Invalid destination address"). -/
  | invalidAddress
  /-- register: "BNS name is already mapped to this address". -/
  | alreadyMapped
  /-- transfer: "BNS name already transferred — domain is already
  owned by <owner>". -/
  | alreadyOwned (owner : Address)
  /-- transfer / unregister: the caller is not the owner
  ("BNS name can't be transfered" / "BNS name can't be freed"). -/
  | notOwner (owner : Address)
  /-- unregister: "BNS name is already free" (owner is the sentinel). -/
  | alreadyFree
  /-- `SendTransaction` errored or returned false. -/
  | sendError
  /-- the transaction was accepted and `wait` was entered with the
  given confirmation predicate. -/
  | submitted (cond : WaitCond)
  /-- lookup: `ResolveBNS` failed ("Lookup error"). -/
  | lookupError
  /-- lookup: `ResolveBNSOwner` failed ("Couldn't lookup owner"). -/
  | ownerLookupError
  /-- lookup: both resolutions succeeded. -/
  | lookupOk (addr : Address) (owner : Address)
deriving DecidableEq

/-- What a Go handler returns: its `(done, err)` pair, plus the trace
of network calls it made and the exit path it took. -/
structure HandlerResult where
  done : Bool
  err : Bool
  events : List NetEvent
  outcome : Outcome
deriving DecidableEq

/-- The environment: the command-line independent state a handler run
observes.  Fields model the external collaborators; pairs `(v, e)`
model Go's `(value, err)` returns with `e = true` meaning a non-nil
error. -/
structure Env where
  /-- `cfg.ClientAddr` (= `client.Config.ClientAddr`). -/
  clientAddr : Address
  /-- `client.ResolveBNS`. -/
  resolveBNS : Str → Address × Bool
  /-- `client.ResolveBNSOwner`. -/
  resolveBNSOwner : Str → Address × Bool
  /-- `client.GetAccountNonce(0, cfg.ClientAddr)`. -/
  accountNonce : Nat
  /-- `util.DecodeAddress` (local parsing, not a network call). -/
  decodeAddress : Str → Address × Bool
  /-- whether `contract.NewBNSContract()` succeeds. -/
  newContractOk : Bool
  /-- `client.SendTransaction`. -/
  sendTransaction : Transaction → Bool × Bool
  /-- `client.GetBlockPeak()`. -/
  blockPeak : Nat
  /-- whether `app.Start()` succeeds. -/
  startOk : Bool

/-- The four operation inputs of the `bns` command
(`cfg.BNSRegister`, `cfg.BNSUnregister`, `cfg.BNSTransfer`,
`cfg.BNSLookup`). -/
structure Config where
  bnsRegister : Str
  bnsUnregister : Str
  bnsTransfer : Str
  bnsLookup : Str
deriving DecidableEq

/-- Second half of `handleRegister`: resolve the name and either stop
with "already mapped" or build and send the register transaction.
In the Go code a `ResolveBNS` error falls through to the submission. -/
def registerCheckAndSend (env : Env) (bnsName : Str) (bnsAddr : Address)
    (nonce : Nat) : HandlerResult :=
  let r := env.resolveBNS bnsName
  let evs := [NetEvent.getNonce, NetEvent.resolveBNS bnsName]
  if r.2 = false ∧ r.1 = bnsAddr then ⟨true, false, evs, .alreadyMapped⟩
  else
    let ntx : Transaction := ⟨nonce, .register bnsName bnsAddr⟩
    let s := env.sendTransaction ntx
    let evs2 := evs ++ [NetEvent.sendTransaction ntx]
    if s.2 then ⟨true, true, evs2, .sendError⟩
    else if s.1 = false then ⟨true, false, evs2, .sendError⟩
    else ⟨true, false, evs2, .submitted (.registerCond bnsName bnsAddr)⟩

/-- `handleRegister` from bns.go. -/
def handleRegister (env : Env) (cfg : Config) : HandlerResult :=
  if cfg.bnsRegister.isEmpty then ⟨false, false, [], .notApplicable⟩
  else
    let registerPair := splitEq cfg.bnsRegister
    if env.newContractOk = false then ⟨true, true, [], .contractError⟩
    else
      let bnsName := asciiToLower (registerPair.headD [])
      if isValidBNS bnsName = false then ⟨true, false, [], .invalidName⟩
      else
        let nonce := env.accountNonce
        if registerPair.length > 1 then
          let d := env.decodeAddress (registerPair.getD 1 [])
          if d.2 then ⟨true, true, [NetEvent.getNonce], .invalidAddress⟩
          else registerCheckAndSend env bnsName d.1 nonce
        else registerCheckAndSend env bnsName env.clientAddr nonce

/-- `handleTransfer` from bns.go. -/
def handleTransfer (env : Env) (cfg : Config) : HandlerResult :=
  let transferPair := splitEq cfg.bnsTransfer
  if transferPair.length ≠ 2 then ⟨false, false, [], .notApplicable⟩
  else if env.newContractOk = false then ⟨true, true, [], .contractError⟩
  else
    let bnsName := asciiToLower (transferPair.headD [])
    if isValidBNS bnsName = false then ⟨true, false, [], .invalidName⟩
    else
      let nonce := env.accountNonce
      let d := env.decodeAddress (transferPair.getD 1 [])
      if d.2 then ⟨true, true, [NetEvent.getNonce], .invalidAddress⟩
      else
        let newOwner := d.1
        let o := env.resolveBNSOwner bnsName
        let evs := [NetEvent.getNonce, NetEvent.resolveBNSOwner bnsName]
        if o.2 = false ∧ o.1 = newOwner then
          ⟨true, true, evs, .alreadyOwned o.1⟩
        else if o.2 = false ∧ o.1 ≠ env.clientAddr then
          ⟨true, true, evs, .notOwner o.1⟩
        else
          let ntx : Transaction := ⟨nonce, .transferOwner bnsName newOwner⟩
          let s := env.sendTransaction ntx
          let evs2 := evs ++ [NetEvent.sendTransaction ntx]
          if s.2 ∨ s.1 = false then ⟨true, true, evs2, .sendError⟩
          else ⟨true, false, evs2, .submitted (.transferCond bnsName newOwner)⟩

/-- `handleUnregister` from bns.go.  The error of `ResolveBNSOwner`
is discarded (`owner, _ = ...`); only the returned address is used. -/
def handleUnregister (env : Env) (cfg : Config) : HandlerResult :=
  if cfg.bnsUnregister.isEmpty then ⟨false, false, [], .notApplicable⟩
  else if env.newContractOk = false then ⟨true, true, [], .contractError⟩
  else
    let bnsName := asciiToLower cfg.bnsUnregister
    if isValidBNS bnsName = false then ⟨true, false, [], .invalidName⟩
    else
      let nonce := env.accountNonce
      let owner := (env.resolveBNSOwner bnsName).1
      let evs := [NetEvent.getNonce, NetEvent.resolveBNSOwner bnsName]
      if owner = sentinelAddress then ⟨true, true, evs, .alreadyFree⟩
      else if owner ≠ env.clientAddr then ⟨true, true, evs, .notOwner owner⟩
      else
        let ntx : Transaction := ⟨nonce, .unregister bnsName⟩
        let s := env.sendTransaction ntx
        let evs2 := evs ++ [NetEvent.sendTransaction ntx]
        if s.2 ∨ s.1 = false then ⟨true, true, evs2, .sendError⟩
        else ⟨true, false, evs2, .submitted (.unregisterCond bnsName)⟩

/-- `handleLookup` from bns.go. -/
def handleLookup (env : Env) (cfg : Config) : HandlerResult :=
  let lookupName := asciiToLower cfg.bnsLookup
  if lookupName.isEmpty then ⟨false, false, [], .notApplicable⟩
  else
    let r := env.resolveBNS lookupName
    if r.2 then ⟨true, true, [NetEvent.resolveBNS lookupName], .lookupError⟩
    else
      let o := env.resolveBNSOwner lookupName
      let evs := [NetEvent.resolveBNS lookupName,
                  NetEvent.resolveBNSOwner lookupName]
      if o.2 then ⟨true, true, evs, .ownerLookupError⟩
      else ⟨true, false, evs, .lookupOk r.1 o.1⟩

/-- `bnsHandler` from bns.go: start the app, check the block peak, then
try the handlers in the fixed order register, unregister, transfer,
lookup; if none applies, report the final "Argument Error". -/
def bnsHandler (env : Env) (cfg : Config) : List NetEvent × Outcome :=
  if env.startOk = false then ([NetEvent.appStart], .startError)
  else if env.blockPeak = 0 then
    ([NetEvent.appStart, NetEvent.getBlockPeak], .blockPeakError)
  else
    let ev0 := [NetEvent.appStart, NetEvent.getBlockPeak]
    let r := handleRegister env cfg
    if r.done ∨ r.err then (ev0 ++ r.events, r.outcome)
    else
      let u := handleUnregister env cfg
      if u.done ∨ u.err then (ev0 ++ r.events ++ u.events, u.outcome)
      else
        let t := handleTransfer env cfg
        if t.done ∨ t.err then
          (ev0 ++ r.events ++ u.events ++ t.events, t.outcome)
        else
          let l := handleLookup env cfg
          if l.done ∨ l.err then
            (ev0 ++ r.events ++ u.events ++ t.events ++ l.events, l.outcome)
          else
            (ev0 ++ r.events ++ u.events ++ t.events ++ l.events,
             .argumentError)

/-- Is the event a transaction submission? -/
def isSendEvent : NetEvent → Bool
  | .sendTransaction _ => true
  | _ => false

/-- Number of transaction submissions in a trace. -/
def submissions (evs : List NetEvent) : Nat :=
  (evs.filter isSendEvent).length

/-- Is the event a network access (everything the handlers record is;
the constructors are listed for clarity)? -/
def isNetworkAccess : NetEvent → Bool
  | .appStart => true
  | .getBlockPeak => true
  | .getNonce => true
  | .resolveBNS _ => true
  | .resolveBNSOwner _ => true
  | .sendTransaction _ => true

/-- Result of the confirmation `wait` loop in bns.go. -/
inductive WaitResult where
  | Confirmed
  | TimedOut
deriving DecidableEq

/-- The inner height-polling loop of `wait`: repeatedly read
`client.LastValid()` (the `k`-th read returns `lastValid k`) until the
value differs from `bn`.  The Go loop is unbounded; `fuel` bounds the
model, and `none` models the loop not having exited within `fuel`
reads.  Returns the read counter after the loop exits. -/
def waitHeight (lastValid : Nat → Nat) (bn : Nat) : Nat → Nat → Option Nat
  | _, 0 => none
  | k, fuel + 1 =>
    if lastValid k ≠ bn then some (k + 1)
    else waitHeight lastValid bn (k + 1) fuel

/-- The outer loop of `wait`: at most `budget` iterations; in each one,
read the height, evaluate the condition (the `i`-th evaluation is
`cond i`), and on failure block until the height changes.  `none`
models divergence of the inner loop. -/
def waitLoop (lastValid : Nat → Nat) (cond : Nat → Bool) (fuel : Nat) :
    Nat → Nat → Nat → Option WaitResult
  | _, _, 0 => some .TimedOut
  | i, k, budget + 1 =>
    let bn := lastValid k
    if cond i then some .Confirmed
    else
      match waitHeight lastValid bn (k + 1) fuel with
      | none => none
      | some k2 => waitLoop lastValid cond fuel (i + 1) k2 budget

/-- `wait` from bns.go: 6000 outer iterations (`for i := 0; i < 6000`),
with the timeout message reported when the budget is exhausted. -/
def wait (lastValid : Nat → Nat) (cond : Nat → Bool) (fuel : Nat) :
    Option WaitResult :=
  waitLoop lastValid cond fuel 0 0 6000

/-- The spec's MutationOutcome taxonomy (§3 and §7 of the spec). -/
inductive MutationOutcome where
  | AlreadySatisfied
  | Conflict
  | Submitted
  | TimedOut
  | ArgError
  | Failed
  | NotAMutation
deriving DecidableEq

/-- Map each code exit path to the spec's taxonomy: the two
"already ..." messages are AlreadySatisfied, wrong-owner and
already-free are Conflict, validation failures are ArgError. -/
def classify : Outcome → MutationOutcome
  | .notApplicable => .NotAMutation
  | .startError => .Failed
  | .blockPeakError => .Failed
  | .argumentError => .ArgError
  | .contractError => .Failed
  | .invalidName => .ArgError
  | .invalidAddress => .ArgError
  | .alreadyMapped => .AlreadySatisfied
  | .alreadyOwned _ => .AlreadySatisfied
  | .notOwner _ => .Conflict
  | .alreadyFree => .Conflict
  | .sendError => .Failed
  | .submitted _ => .Submitted
  | .lookupError => .Failed
  | .ownerLookupError => .Failed
  | .lookupOk _ _ => .NotAMutation

/-- The event traces `handleRegister` can produce before entering the
confirmation wait: nothing, just the nonce read, nonce then resolve,
or nonce then resolve then submission (reads always precede the
submission). -/
def registerTraceShape (evs : List NetEvent) : Bool :=
  match evs with
  | [] => true
  | [.getNonce] => true
  | [.getNonce, .resolveBNS _] => true
  | [.getNonce, .resolveBNS _, .sendTransaction _] => true
  | _ => false

/-- The event traces `handleTransfer` can produce before entering the
confirmation wait. -/
def transferTraceShape (evs : List NetEvent) : Bool :=
  match evs with
  | [] => true
  | [.getNonce] => true
  | [.getNonce, .resolveBNSOwner _] => true
  | [.getNonce, .resolveBNSOwner _, .sendTransaction _] => true
  | _ => false

/-- The event traces `handleUnregister` can produce before entering
the confirmation wait: nothing, nonce then owner resolve, or nonce
then owner resolve then submission (there is no address to decode, so
no nonce-only trace). -/
def unregisterTraceShape (evs : List NetEvent) : Bool :=
  match evs with
  | [] => true
  | [.getNonce, .resolveBNSOwner _] => true
  | [.getNonce, .resolveBNSOwner _, .sendTransaction _] => true
  | _ => false

/-- A concrete healthy environment for witnesses and counterexamples:
the caller is address 0x01…01, every name resolves to address
0x02…02 with owner 0x02…02, addresses decode to 0x02…02, and
submissions succeed. -/
def envStd : Env :=
  { clientAddr := constAddress 1
    resolveBNS := fun _ => (constAddress 2, false)
    resolveBNSOwner := fun _ => (constAddress 2, false)
    accountNonce := 7
    decodeAddress := fun _ => (constAddress 2, false)
    newContractOk := true
    sendTransaction := fun _ => (true, false)
    blockPeak := 5
    startOk := true }

/-- `envStd` with a malformed-address decoder (`DecodeAddress` fails). -/
def envBadAddr : Env :=
  { envStd with decodeAddress := fun _ => (constAddress 0, true) }

/-- `envStd` but the requested new owner decodes to 0x03…03, so the
resolved owner 0x02…02 is neither the caller nor the new owner. -/
def envOtherOwner : Env :=
  { envStd with decodeAddress := fun _ => (constAddress 3, false) }

/-- `envStd` but every name resolves to the sentinel owner (free). -/
def envFreeName : Env :=
  { envStd with resolveBNSOwner := fun _ => (sentinelAddress, false) }

/-- No operation input at all. -/
def cfgEmpty : Config := ⟨[], [], [], []⟩

/-- Only `-transfer hello-world=0xdd`. -/
def cfgTransferHello : Config := ⟨[], [], "hello-world=0xdd".toList, []⟩

/-- Only `-register hello-world=0xdd`. -/
def cfgRegisterHello : Config := ⟨"hello-world=0xdd".toList, [], [], []⟩

/-- Only `-unregister hello-world`. -/
def cfgUnregisterHello : Config := ⟨[], "hello-world".toList, [], []⟩

/-- Only `-transfer hello-world` (no `=`: does not split in two). -/
def cfgTransferBare : Config := ⟨[], [], "hello-world".toList, []⟩

/-- Both `-register` and `-lookup` supplied at once. -/
def cfgRegisterAndLookup : Config :=
  ⟨"hello-world=0xdd".toList, [], [], "other-name".toList⟩

/-- Lowercase the name part of a `name=value` input: the part before
the first `=` is lowercased, the rest is untouched.  Used to state
that an operation behaves identically when its name argument is
lowercased up front. -/
def lowerNamePart (s : Str) : Str :=
  joinEq (asciiToLower ((splitEq s).headD []) :: (splitEq s).tail)

/-! ## Basic lemmas about characters and lowercasing -/

theorem toNat_charOfNat_of_le {n : Nat} (h : n ≤ 122) :
    (Char.ofNat n).toNat = n := by
  rw [Char.ofNat, dif_pos (Or.inl (by omega))]
  simp [Char.ofNatAux, Char.toNat, UInt32.toNat]

theorem lowerChar_toNat_of_upper {c : Char}
    (h : 65 ≤ c.toNat ∧ c.toNat ≤ 90) :
    (lowerChar c).toNat = c.toNat + 32 := by
  rw [lowerChar, if_pos h, toNat_charOfNat_of_le (by omega)]

theorem lowerChar_eq_self {c : Char}
    (h : ¬(65 ≤ c.toNat ∧ c.toNat ≤ 90)) : lowerChar c = c := by
  rw [lowerChar, if_neg h]

theorem lowerChar_idem (c : Char) : lowerChar (lowerChar c) = lowerChar c := by
  by_cases h : 65 ≤ c.toNat ∧ c.toNat ≤ 90
  · have h1 := lowerChar_toNat_of_upper h
    exact lowerChar_eq_self (by omega)
  · rw [lowerChar_eq_self h, lowerChar_eq_self h]

theorem asciiToLower_idem (s : Str) :
    asciiToLower (asciiToLower s) = asciiToLower s := by
  simp [asciiToLower, Function.comp, lowerChar_idem]

theorem length_asciiToLower (s : Str) :
    (asciiToLower s).length = s.length := by
  simp [asciiToLower]

theorem lowerChar_eq_eqChar {c : Char} (h : lowerChar c = '=') : c = '=' := by
  by_cases hu : 65 ≤ c.toNat ∧ c.toNat ≤ 90
  · have h1 := lowerChar_toNat_of_upper hu
    rw [h] at h1
    simp at h1
    omega
  · rwa [lowerChar_eq_self hu] at h

theorem eqChar_notMem_asciiToLower {p : Str} (h : '=' ∉ p) :
    '=' ∉ asciiToLower p := by
  intro hmem
  rcases List.mem_map.mp hmem with ⟨c, hc, hl⟩
  exact h (lowerChar_eq_eqChar hl ▸ hc)

/-! ## Lemmas about `splitEq` and `joinEq` -/

theorem splitEq_ne_nil (s : Str) : splitEq s ≠ [] := by
  induction s with
  | nil => simp [splitEq]
  | cons c cs ih =>
    rw [splitEq]
    split
    · simp
    · cases h : splitEq cs with
      | nil => simp
      | cons p ps => simp

theorem eqChar_notMem_splitEq (s : Str) : ∀ p ∈ splitEq s, '=' ∉ p := by
  induction s with
  | nil => simp [splitEq]
  | cons c cs ih =>
    rw [splitEq]
    split
    · intro p hp
      rcases List.mem_cons.mp hp with rfl | hp
      · simp
      · exact ih p hp
    · rename_i hc
      cases h : splitEq cs with
      | nil => exact absurd h (splitEq_ne_nil cs)
      | cons q qs =>
        intro p hp
        rcases List.mem_cons.mp hp with rfl | hp
        · intro hmem
          rcases List.mem_cons.mp hmem with rfl | hmem
          · exact hc rfl
          · exact ih q (h ▸ List.mem_cons_self q qs) hmem
        · exact ih p (h ▸ List.mem_cons_of_mem q hp)

theorem joinEq_splitEq (s : Str) : joinEq (splitEq s) = s := by
  induction s with
  | nil => rfl
  | cons c cs ih =>
    rw [splitEq]
    split
    · rename_i hc
      subst hc
      cases h : splitEq cs with
      | nil => exact absurd h (splitEq_ne_nil cs)
      | cons p ps =>
        rw [h] at ih
        simpa [joinEq] using ih
    · cases h : splitEq cs with
      | nil => exact absurd h (splitEq_ne_nil cs)
      | cons p ps =>
        rw [h] at ih
        cases ps with
        | nil => simpa [joinEq] using ih
        | cons q qs => simpa [joinEq] using ih

theorem splitEq_of_no_eqChar {p : Str} (h : '=' ∉ p) : splitEq p = [p] := by
  induction p with
  | nil => rfl
  | cons c cs ih =>
    rw [splitEq]
    rw [if_neg (by intro hc; exact h (hc ▸ List.mem_cons_self c cs))]
    rw [ih (fun hm => h (List.mem_cons_of_mem c hm))]

theorem splitEq_append_eqChar {p : Str} (r : Str) (h : '=' ∉ p) :
    splitEq (p ++ '=' :: r) = p :: splitEq r := by
  induction p with
  | nil =>
    simp only [List.nil_append]
    rw [splitEq, if_pos rfl]
  | cons c cs ih =>
    simp only [List.cons_append]
    rw [splitEq]
    rw [if_neg (by intro hc; exact h (hc ▸ List.mem_cons_self c cs))]
    rw [ih (fun hm => h (List.mem_cons_of_mem c hm))]

theorem splitEq_joinEq (l : List Str) (hne : l ≠ [])
    (h : ∀ p ∈ l, '=' ∉ p) : splitEq (joinEq l) = l := by
  induction l with
  | nil => exact absurd rfl hne
  | cons p ps ih =>
    cases ps with
    | nil =>
      rw [joinEq]
      exact splitEq_of_no_eqChar (h p (List.mem_cons_self p []))
    | cons q qs =>
      show splitEq (p ++ '=' :: joinEq (q :: qs)) = p :: q :: qs
      rw [splitEq_append_eqChar _ (h p (List.mem_cons_self p _))]
      rw [ih (List.cons_ne_nil q qs) (fun r hr => h r (List.mem_cons_of_mem p hr))]

/-! ## C4: the name validator -/

/-- C4: `isValidBNS` returns true exactly on strings whose length is
between 7 and 32 inclusive all of whose characters are digits,
lowercase ascii letters, or hyphens; on every other string it returns
false.  The function is total (it returns a boolean and cannot fail). -/
theorem isValidBNS_iff_length_and_chars (s : Str) :
    isValidBNS s = true ↔
      7 ≤ s.length ∧ s.length ≤ 32 ∧
        ∀ c ∈ s, ('0' ≤ c ∧ c ≤ '9') ∨ ('a' ≤ c ∧ c ≤ 'z') ∨ c = '-' := by
  unfold isValidBNS bnsPatternMatches
  by_cases hlen : s.length < 7 ∨ s.length > 32
  · rw [if_pos hlen]
    simp only [Bool.false_eq_true, false_iff]
    intro ⟨h1, h2, _⟩
    omega
  · rw [if_neg hlen]
    push_neg at hlen
    have hne : s.isEmpty = false := by
      cases s with
      | nil => simp at hlen
      | cons c cs => rfl
    rw [hne]
    simp only [Bool.not_false, Bool.true_and, List.all_eq_true]
    constructor
    · intro hall
      refine ⟨by omega, by omega, fun c hc => ?_⟩
      have := hall c hc
      simp only [isNameChar, Bool.or_eq_true, Bool.and_eq_true,
        decide_eq_true_eq, beq_iff_eq] at this
      tauto
    · intro ⟨_, _, hall⟩ c hc
      simp only [isNameChar, Bool.or_eq_true, Bool.and_eq_true,
        decide_eq_true_eq, beq_iff_eq]
      rcases hall c hc with h | h | h
      · exact Or.inl (Or.inl h)
      · exact Or.inl (Or.inr h)
      · exact Or.inr h

/-! ## C2: the confirmation waiter times out -/

theorem waitHeight_of_ne {lastValid : Nat → Nat} {bn k : Nat} (fuel : Nat)
    (h : lastValid k ≠ bn) :
    waitHeight lastValid bn k (fuel + 1) = some (k + 1) := by
  rw [waitHeight, if_pos h]

theorem waitLoop_timedOut (lastValid : Nat → Nat) (cond : Nat → Bool)
    (fuel : Nat) (hmono : StrictMono lastValid)
    (hcond : ∀ i, cond i = false) (hfuel : 1 ≤ fuel) :
    ∀ budget i k, waitLoop lastValid cond fuel i k budget = some .TimedOut := by
  intro budget
  induction budget with
  | zero => intro i k; rfl
  | succ b ih =>
    intro i k
    rw [waitLoop]
    rw [hcond i]
    simp only [Bool.false_eq_true, if_false]
    obtain ⟨f, rfl⟩ : ∃ f, fuel = f + 1 := ⟨fuel - 1, by omega⟩
    rw [waitHeight_of_ne f (Nat.ne_of_gt (hmono (Nat.lt_succ_self k)))]
    exact ih (i + 1) (k + 2)

/-- C2: if the confirmation predicate never becomes true and the
ledger height read by `LastValid` keeps advancing (the resolver
contract: heights are strictly increasing over time), then `wait`
terminates with TimedOut once its fixed budget of 6000 iterations is
exhausted; it does not hang. -/
theorem wait_timedOut_of_never_true (lastValid : Nat → Nat)
    (cond : Nat → Bool) (fuel : Nat) (hmono : StrictMono lastValid)
    (hcond : ∀ i, cond i = false) (hfuel : 1 ≤ fuel) :
    wait lastValid cond fuel = some .TimedOut :=
  waitLoop_timedOut lastValid cond fuel hmono hcond hfuel 6000 0 0

/-- Witness for C2: a concrete environment whose height stream is the
identity and whose predicate is constantly false reaches TimedOut. -/
theorem wait_timedOut_of_never_true_witness :
    wait id (fun _ => false) 1 = some .TimedOut :=
  wait_timedOut_of_never_true id (fun _ => false) 1 strictMono_id
    (fun _ => rfl) (Nat.le_refl 1)

/-! ## Handler evaluation helpers -/

theorem isEmpty_eq_false_of_ne_nil {l : Str} (h : l ≠ []) :
    l.isEmpty = false := by
  cases l with
  | nil => exact absurd rfl h
  | cons a as => rfl

/-! ## C6: unregistering a free name -/

/-- C6: an unregister request on a valid name whose resolved owner is
the sentinel (all-zero) address reports the "BNS name is already free"
conflict and performs no transaction submission. -/
theorem unregister_free_name_conflict (env : Env) (cfg : Config)
    (hne : cfg.bnsUnregister ≠ [])
    (hc : env.newContractOk = true)
    (hname : isValidBNS (asciiToLower cfg.bnsUnregister) = true)
    (hfree : (env.resolveBNSOwner (asciiToLower cfg.bnsUnregister)).1
      = sentinelAddress) :
    (handleUnregister env cfg).outcome = Outcome.alreadyFree ∧
    classify (handleUnregister env cfg).outcome = MutationOutcome.Conflict ∧
    submissions (handleUnregister env cfg).events = 0 := by
  have hmain : handleUnregister env cfg = ⟨true, true,
      [NetEvent.getNonce,
       NetEvent.resolveBNSOwner (asciiToLower cfg.bnsUnregister)],
      Outcome.alreadyFree⟩ := by
    unfold handleUnregister
    simp [isEmpty_eq_false_of_ne_nil hne, hc, hname, hfree]
  rw [hmain]
  exact ⟨rfl, rfl, rfl⟩

/-- Witness for C6 at a concrete input. -/
theorem unregister_free_name_conflict_witness :
    (handleUnregister envFreeName cfgUnregisterHello).outcome
      = Outcome.alreadyFree ∧
    classify (handleUnregister envFreeName cfgUnregisterHello).outcome
      = MutationOutcome.Conflict ∧
    submissions (handleUnregister envFreeName cfgUnregisterHello).events = 0 :=
  unregister_free_name_conflict envFreeName cfgUnregisterHello
    (by decide) rfl (by decide) rfl

/-! ## C5: registering an already-satisfied binding -/

/-- C5: a register request `name=addr` where the name resolves without
error to exactly the requested address reports "BNS name is already
mapped to this address" (AlreadySatisfied) and performs no
transaction submission. -/
theorem register_already_mapped (env : Env) (cfg : Config)
    (p0 p1 : Str) (rest : List Str) (addr : Address)
    (hsplit : splitEq cfg.bnsRegister = p0 :: p1 :: rest)
    (hc : env.newContractOk = true)
    (hname : isValidBNS (asciiToLower p0) = true)
    (hdec : env.decodeAddress p1 = (addr, false))
    (hres : env.resolveBNS (asciiToLower p0) = (addr, false)) :
    (handleRegister env cfg).outcome = Outcome.alreadyMapped ∧
    classify (handleRegister env cfg).outcome
      = MutationOutcome.AlreadySatisfied ∧
    submissions (handleRegister env cfg).events = 0 := by
  have hne : cfg.bnsRegister ≠ [] := by
    intro h0
    rw [h0] at hsplit
    simp [splitEq] at hsplit
  have hmain : handleRegister env cfg = ⟨true, false,
      [NetEvent.getNonce, NetEvent.resolveBNS (asciiToLower p0)],
      Outcome.alreadyMapped⟩ := by
    unfold handleRegister
    rw [isEmpty_eq_false_of_ne_nil hne]
    rw [hsplit]
    simp only [Bool.false_eq_true, if_false, hc, List.headD_cons]
    rw [if_neg (by simp)]
    rw [if_neg (by rw [hname]; simp)]
    rw [if_pos (by simp)]
    have hget : (p0 :: p1 :: rest).getD 1 [] = p1 := rfl
    rw [hget, hdec]
    unfold registerCheckAndSend
    rw [hres]
    simp
  rw [hmain]
  exact ⟨rfl, rfl, rfl⟩

/-- Witness for C5 at a concrete input. -/
theorem register_already_mapped_witness :
    (handleRegister envStd cfgRegisterHello).outcome
      = Outcome.alreadyMapped ∧
    classify (handleRegister envStd cfgRegisterHello).outcome
      = MutationOutcome.AlreadySatisfied ∧
    submissions (handleRegister envStd cfgRegisterHello).events = 0 :=
  register_already_mapped envStd cfgRegisterHello
    "hello-world".toList "0xdd".toList [] (constAddress 2)
    (by decide) rfl (by decide) rfl rfl

/-! ## C10: a transfer value that does not split in two -/

/-- C10: when the transfer input does not split on `=` into exactly two
parts, `handleTransfer` reports not-applicable (`done = false`, no
error) with an empty trace, and `bnsHandler` behaves exactly as if no
transfer input had been supplied (dispatch falls through). -/
theorem transfer_not_applicable (env : Env) (cfg : Config)
    (h : (splitEq cfg.bnsTransfer).length ≠ 2) :
    handleTransfer env cfg
      = ⟨false, false, [], Outcome.notApplicable⟩ ∧
    bnsHandler env cfg = bnsHandler env { cfg with bnsTransfer := [] } := by
  have h1 : handleTransfer env cfg
      = ⟨false, false, [], Outcome.notApplicable⟩ := by
    unfold handleTransfer
    rw [if_pos h]
  have h2 : handleTransfer env { cfg with bnsTransfer := [] }
      = ⟨false, false, [], Outcome.notApplicable⟩ := by
    unfold handleTransfer
    rw [if_pos (by simp [splitEq])]
  have hr : handleRegister env { cfg with bnsTransfer := [] }
      = handleRegister env cfg := rfl
  have hu : handleUnregister env { cfg with bnsTransfer := [] }
      = handleUnregister env cfg := rfl
  have hl : handleLookup env { cfg with bnsTransfer := [] }
      = handleLookup env cfg := rfl
  refine ⟨h1, ?_⟩
  unfold bnsHandler
  rw [h1, h2, hr, hu, hl]

/-- Witness for C10: a bare name with no `=` falls through. -/
theorem transfer_not_applicable_witness :
    handleTransfer envStd cfgTransferBare
      = ⟨false, false, [], Outcome.notApplicable⟩ ∧
    bnsHandler envStd cfgTransferBare
      = bnsHandler envStd { cfgTransferBare with bnsTransfer := [] } :=
  transfer_not_applicable envStd cfgTransferBare (by decide)

/-! ## C1: transferring a name not owned by the caller -/

/-- C1 (amended): on a valid transfer request whose owner resolution
succeeds with an owner different from the caller, no submission is
issued; the outcome is the "can't be transfered" Conflict when the
owner also differs from the requested new owner, but it is the
"already transferred" AlreadySatisfied outcome when the owner equals
the requested new owner (that check comes first in the code). -/
theorem transfer_wrong_owner (env : Env) (cfg : Config)
    (p0 p1 : Str) (newOwner owner : Address)
    (hsplit : splitEq cfg.bnsTransfer = [p0, p1])
    (hc : env.newContractOk = true)
    (hname : isValidBNS (asciiToLower p0) = true)
    (hdec : env.decodeAddress p1 = (newOwner, false))
    (hres : env.resolveBNSOwner (asciiToLower p0) = (owner, false))
    (hown : owner ≠ env.clientAddr) :
    submissions (handleTransfer env cfg).events = 0 ∧
    (owner ≠ newOwner →
      (handleTransfer env cfg).outcome = Outcome.notOwner owner ∧
      classify (handleTransfer env cfg).outcome
        = MutationOutcome.Conflict) ∧
    (owner = newOwner →
      (handleTransfer env cfg).outcome = Outcome.alreadyOwned owner ∧
      classify (handleTransfer env cfg).outcome
        = MutationOutcome.AlreadySatisfied) := by
  have hget : ([p0, p1] : List Str).getD 1 [] = p1 := rfl
  by_cases heq : owner = newOwner
  · have hmain : handleTransfer env cfg = ⟨true, true,
        [NetEvent.getNonce, NetEvent.resolveBNSOwner (asciiToLower p0)],
        Outcome.alreadyOwned owner⟩ := by
      simp [handleTransfer, hsplit, hc, hname, hget, hdec, hres, heq]
    rw [hmain]
    exact ⟨rfl, fun h => absurd heq h, fun _ => ⟨rfl, rfl⟩⟩
  · have hmain : handleTransfer env cfg = ⟨true, true,
        [NetEvent.getNonce, NetEvent.resolveBNSOwner (asciiToLower p0)],
        Outcome.notOwner owner⟩ := by
      simp [handleTransfer, hsplit, hc, hname, hget, hdec, hres, heq, hown]
    rw [hmain]
    exact ⟨rfl, fun _ => ⟨rfl, rfl⟩, fun h => absurd h heq⟩

/-- Witness for the amended C1: owner 0x02…02, caller 0x01…01,
requested new owner 0x03…03 — a genuine Conflict, no submission. -/
theorem transfer_wrong_owner_witness :
    submissions (handleTransfer envOtherOwner cfgTransferHello).events = 0 ∧
    (handleTransfer envOtherOwner cfgTransferHello).outcome
      = Outcome.notOwner (constAddress 2) ∧
    classify (handleTransfer envOtherOwner cfgTransferHello).outcome
      = MutationOutcome.Conflict := by
  have h := transfer_wrong_owner envOtherOwner cfgTransferHello
    "hello-world".toList "0xdd".toList (constAddress 3) (constAddress 2)
    (by decide) rfl (by decide) rfl rfl (by decide)
  exact ⟨h.1, (h.2.1 (by decide)).1, (h.2.1 (by decide)).2⟩

/-- Counterexample to C1 as stated: with caller 0x01…01, a transfer of
a valid name whose resolved owner 0x02…02 is not the caller but equals
the requested new owner reports the "already transferred"
AlreadySatisfied outcome, not a Conflict (zero submissions still). -/
theorem transfer_wrong_owner_counterexample :
    (envStd.resolveBNSOwner "hello-world".toList
      = (constAddress 2, false)) ∧
    constAddress 2 ≠ envStd.clientAddr ∧
    (handleTransfer envStd cfgTransferHello).outcome
      = Outcome.alreadyOwned (constAddress 2) ∧
    classify (handleTransfer envStd cfgTransferHello).outcome
      ≠ MutationOutcome.Conflict ∧
    submissions (handleTransfer envStd cfgTransferHello).events = 0 := by
  exact ⟨rfl, by decide, by decide, by decide, by decide⟩

/-! ## Applicability helpers for the dispatcher -/

theorem handleRegister_empty_input (env : Env) (cfg : Config)
    (h : cfg.bnsRegister = []) :
    handleRegister env cfg = ⟨false, false, [], Outcome.notApplicable⟩ := by
  simp [handleRegister, h]

theorem handleUnregister_empty_input (env : Env) (cfg : Config)
    (h : cfg.bnsUnregister = []) :
    handleUnregister env cfg = ⟨false, false, [], Outcome.notApplicable⟩ := by
  simp [handleUnregister, h]

theorem handleTransfer_no_pair (env : Env) (cfg : Config)
    (h : (splitEq cfg.bnsTransfer).length ≠ 2) :
    handleTransfer env cfg = ⟨false, false, [], Outcome.notApplicable⟩ := by
  unfold handleTransfer
  rw [if_pos h]

theorem handleLookup_empty_input (env : Env) (cfg : Config)
    (h : cfg.bnsLookup = []) :
    handleLookup env cfg = ⟨false, false, [], Outcome.notApplicable⟩ := by
  simp [handleLookup, h, asciiToLower]

theorem handleRegister_done_of_ne (env : Env) (cfg : Config)
    (h : cfg.bnsRegister ≠ []) : (handleRegister env cfg).done = true := by
  simp only [handleRegister, registerCheckAndSend,
    isEmpty_eq_false_of_ne_nil h]
  rw [if_neg Bool.false_ne_true]
  repeat' split
  all_goals rfl

theorem handleUnregister_done_of_ne (env : Env) (cfg : Config)
    (h : cfg.bnsUnregister ≠ []) :
    (handleUnregister env cfg).done = true := by
  simp only [handleUnregister, isEmpty_eq_false_of_ne_nil h]
  rw [if_neg Bool.false_ne_true]
  repeat' split
  all_goals rfl

theorem handleTransfer_done_of_pair (env : Env) (cfg : Config)
    (h : (splitEq cfg.bnsTransfer).length = 2) :
    (handleTransfer env cfg).done = true := by
  simp only [handleTransfer, h]
  rw [if_neg (fun h2 => h2 rfl)]
  repeat' split
  all_goals rfl

theorem handleLookup_done_of_ne (env : Env) (cfg : Config)
    (h : cfg.bnsLookup ≠ []) : (handleLookup env cfg).done = true := by
  have h2 : asciiToLower cfg.bnsLookup ≠ [] := by
    simp [asciiToLower]
    exact h
  simp only [handleLookup, isEmpty_eq_false_of_ne_nil h2]
  rw [if_neg Bool.false_ne_true]
  repeat' split
  all_goals rfl

/-! ## C7: ordering of validation, reads and construction -/

set_option maxHeartbeats 4000000 in
/-- C7 (amended): in every mutation call (register, transfer and
unregister) the trace is one of `[]`, `[getNonce]` (register and
transfer only), `[getNonce, resolve]`,
`[getNonce, resolve, sendTransaction]`, so name validation precedes
every network read, the resolver read precedes transaction
construction and submission, and the submission is always last.  A
name-validation failure produces an empty trace; an address-decoding
failure (possible only for register and transfer, the operations that
take an address) aborts the call, but only after the account-nonce
network read (which the code performs before decoding the address). -/
theorem mutation_validation_order (env : Env) (cfg : Config) :
    registerTraceShape (handleRegister env cfg).events = true ∧
    transferTraceShape (handleTransfer env cfg).events = true ∧
    ((handleRegister env cfg).outcome = Outcome.invalidName →
      (handleRegister env cfg).events = []) ∧
    ((handleTransfer env cfg).outcome = Outcome.invalidName →
      (handleTransfer env cfg).events = []) ∧
    ((handleRegister env cfg).outcome = Outcome.invalidAddress →
      (handleRegister env cfg).events = [NetEvent.getNonce]) ∧
    ((handleTransfer env cfg).outcome = Outcome.invalidAddress →
      (handleTransfer env cfg).events = [NetEvent.getNonce]) ∧
    unregisterTraceShape (handleUnregister env cfg).events = true ∧
    ((handleUnregister env cfg).outcome = Outcome.invalidName →
      (handleUnregister env cfg).events = []) := by
  refine ⟨?_, ?_, ?_, ?_, ?_, ?_, ?_, ?_⟩
  · simp only [handleRegister, registerCheckAndSend]
    repeat' split
    all_goals rfl
  · simp only [handleTransfer]
    repeat' split
    all_goals rfl
  · simp only [handleRegister, registerCheckAndSend]
    repeat' split
    all_goals intro hx
    all_goals first | rfl | simp at hx
  · simp only [handleTransfer]
    repeat' split
    all_goals intro hx
    all_goals first | rfl | simp at hx
  · simp only [handleRegister, registerCheckAndSend]
    repeat' split
    all_goals intro hx
    all_goals first | rfl | simp at hx
  · simp only [handleTransfer]
    repeat' split
    all_goals intro hx
    all_goals first | rfl | simp at hx
  · simp only [handleUnregister]
    repeat' split
    all_goals rfl
  · simp only [handleUnregister]
    repeat' split
    all_goals intro hx
    all_goals first | rfl | simp at hx

/-- Witness for C7: at a concrete register input with a malformed
address the trace is exactly the nonce read. -/
theorem mutation_validation_order_witness :
    (handleRegister envBadAddr cfgRegisterHello).events
      = [NetEvent.getNonce] :=
  (mutation_validation_order envBadAddr cfgRegisterHello).2.2.2.2.1
    (by decide)

/-- Counterexample to C7 as stated: a register request with a valid
name but a malformed address is rejected only after the account-nonce
network read, so "no network access attempted" is false. -/
theorem malformed_address_reads_nonce_counterexample :
    (handleRegister envBadAddr cfgRegisterHello).outcome
      = Outcome.invalidAddress ∧
    (handleRegister envBadAddr cfgRegisterHello).events.any
      isNetworkAccess = true := by
  exact ⟨by decide, by decide⟩

/-! ## C3: no operation supplied -/

/-- C3 (amended): when the app starts, the block peak is nonzero and
none of the four operation inputs is supplied, `bnsHandler` reports
the Argument Error, and its whole trace is the startup connectivity
check (app start and block-peak read): no resolver read, no nonce
read, and no submission occur. -/
theorem no_operation_argument_error (env : Env) (cfg : Config)
    (hs : env.startOk = true) (hb : env.blockPeak ≠ 0)
    (hr : cfg.bnsRegister = []) (hu : cfg.bnsUnregister = [])
    (ht : cfg.bnsTransfer = []) (hl : cfg.bnsLookup = []) :
    bnsHandler env cfg
      = ([NetEvent.appStart, NetEvent.getBlockPeak],
         Outcome.argumentError) := by
  have h1 := handleRegister_empty_input env cfg hr
  have h2 := handleUnregister_empty_input env cfg hu
  have h3 := handleTransfer_no_pair env cfg (by rw [ht]; simp [splitEq])
  have h4 := handleLookup_empty_input env cfg hl
  simp [bnsHandler, hs, hb, h1, h2, h3, h4]

/-- Witness for the amended C3 at a concrete input. -/
theorem no_operation_argument_error_witness :
    bnsHandler envStd cfgEmpty
      = ([NetEvent.appStart, NetEvent.getBlockPeak],
         Outcome.argumentError) :=
  no_operation_argument_error envStd cfgEmpty rfl (by decide)
    rfl rfl rfl rfl

/-- Counterexample to C3 as stated: with no operation supplied the
Argument Error is indeed reported, but the trace is not empty — a
ledger read (the block-peak query) has already happened, so "no
ledger read or any other network access occurs" is false. -/
theorem argument_error_after_ledger_read_counterexample :
    (bnsHandler envStd cfgEmpty).2 = Outcome.argumentError ∧
    (bnsHandler envStd cfgEmpty).1.any isNetworkAccess = true ∧
    NetEvent.getBlockPeak ∈ (bnsHandler envStd cfgEmpty).1 := by
  exact ⟨by decide, by decide, by decide⟩

/-! ## C8: dispatch priority -/

/-- C8: when the app starts and the block peak is nonzero, the first
applicable handler in the fixed order register, unregister, transfer,
lookup determines the whole result of `bnsHandler` (its events are the
only ones after the startup check, its outcome is reported), and that
handler's behaviour does not depend on the other three inputs. -/
theorem dispatch_priority (env : Env) (cfg : Config)
    (hs : env.startOk = true) (hb : env.blockPeak ≠ 0) :
    (cfg.bnsRegister ≠ [] →
      bnsHandler env cfg
        = ([NetEvent.appStart, NetEvent.getBlockPeak]
            ++ (handleRegister env cfg).events,
           (handleRegister env cfg).outcome) ∧
      handleRegister env cfg
        = handleRegister env ⟨cfg.bnsRegister, [], [], []⟩) ∧
    (cfg.bnsRegister = [] → cfg.bnsUnregister ≠ [] →
      bnsHandler env cfg
        = ([NetEvent.appStart, NetEvent.getBlockPeak]
            ++ (handleUnregister env cfg).events,
           (handleUnregister env cfg).outcome) ∧
      handleUnregister env cfg
        = handleUnregister env ⟨[], cfg.bnsUnregister, [], []⟩) ∧
    (cfg.bnsRegister = [] → cfg.bnsUnregister = [] →
        (splitEq cfg.bnsTransfer).length = 2 →
      bnsHandler env cfg
        = ([NetEvent.appStart, NetEvent.getBlockPeak]
            ++ (handleTransfer env cfg).events,
           (handleTransfer env cfg).outcome) ∧
      handleTransfer env cfg
        = handleTransfer env ⟨[], [], cfg.bnsTransfer, []⟩) ∧
    (cfg.bnsRegister = [] → cfg.bnsUnregister = [] →
        (splitEq cfg.bnsTransfer).length ≠ 2 → cfg.bnsLookup ≠ [] →
      bnsHandler env cfg
        = ([NetEvent.appStart, NetEvent.getBlockPeak]
            ++ (handleLookup env cfg).events,
           (handleLookup env cfg).outcome) ∧
      handleLookup env cfg
        = handleLookup env ⟨[], [], [], cfg.bnsLookup⟩) := by
  refine ⟨fun h1 => ⟨?_, rfl⟩, fun h1 h2 => ⟨?_, rfl⟩,
    fun h1 h2 h3 => ⟨?_, rfl⟩, fun h1 h2 h3 h4 => ⟨?_, rfl⟩⟩
  · have hd := handleRegister_done_of_ne env cfg h1
    simp [bnsHandler, hs, hb, hd]
  · have hr := handleRegister_empty_input env cfg h1
    have hd := handleUnregister_done_of_ne env cfg h2
    simp [bnsHandler, hs, hb, hr, hd]
  · have hr := handleRegister_empty_input env cfg h1
    have hu := handleUnregister_empty_input env cfg h2
    have hd := handleTransfer_done_of_pair env cfg h3
    simp [bnsHandler, hs, hb, hr, hu, hd]
  · have hr := handleRegister_empty_input env cfg h1
    have hu := handleUnregister_empty_input env cfg h2
    have ht := handleTransfer_no_pair env cfg h3
    have hd := handleLookup_done_of_ne env cfg h4
    simp [bnsHandler, hs, hb, hr, hu, ht, hd]

/-- Witness for C8: with both `-register` and `-lookup` supplied, the
register handler alone determines the result. -/
theorem dispatch_priority_witness :
    bnsHandler envStd cfgRegisterAndLookup
      = ([NetEvent.appStart, NetEvent.getBlockPeak]
          ++ (handleRegister envStd cfgRegisterAndLookup).events,
         (handleRegister envStd cfgRegisterAndLookup).outcome) ∧
    handleRegister envStd cfgRegisterAndLookup
      = handleRegister envStd ⟨cfgRegisterAndLookup.bnsRegister, [], [], []⟩ :=
  (dispatch_priority envStd cfgRegisterAndLookup rfl (by decide)).1
    (by decide)

/-! ## C9: lowercasing the name argument is transparent -/

theorem getD_one_cons {α : Type} (a : α) (l : List α) (d : α) :
    (a :: l).getD 1 d = l.getD 0 d := rfl

theorem asciiToLower_ne_nil {s : Str} (h : s ≠ []) :
    asciiToLower s ≠ [] := by
  simp [asciiToLower]
  exact h

theorem splitEq_lowerNamePart (s : Str) :
    splitEq (lowerNamePart s)
      = asciiToLower ((splitEq s).headD []) :: (splitEq s).tail := by
  obtain ⟨p, ps, hsp⟩ : ∃ p ps, splitEq s = p :: ps := by
    cases h : splitEq s with
    | nil => exact absurd h (splitEq_ne_nil s)
    | cons p ps => exact ⟨p, ps, rfl⟩
  rw [lowerNamePart, hsp, List.headD_cons, List.tail_cons]
  refine splitEq_joinEq _ (List.cons_ne_nil _ _) ?_
  intro q hq
  rcases List.mem_cons.mp hq with rfl | hq
  · exact eqChar_notMem_asciiToLower
      (eqChar_notMem_splitEq s p (hsp ▸ List.mem_cons_self p ps))
  · exact eqChar_notMem_splitEq s q (hsp ▸ List.mem_cons_of_mem p hq)

theorem lowerNamePart_ne_nil {s : Str} (h : s ≠ []) :
    lowerNamePart s ≠ [] := by
  obtain ⟨p, ps, hsp⟩ : ∃ p ps, splitEq s = p :: ps := by
    cases h2 : splitEq s with
    | nil => exact absurd h2 (splitEq_ne_nil s)
    | cons p ps => exact ⟨p, ps, rfl⟩
  rw [lowerNamePart, hsp, List.headD_cons, List.tail_cons]
  cases ps with
  | nil =>
    show joinEq [asciiToLower p] ≠ []
    rw [joinEq]
    intro hnil
    have hp : p = [] := by
      have := congrArg List.length hnil
      simp [asciiToLower] at this
      exact this
    apply h
    have := joinEq_splitEq s
    rw [hsp, hp] at this
    exact this.symm
  | cons q qs =>
    show asciiToLower p ++ '=' :: joinEq (q :: qs) ≠ []
    intro hnil
    rcases List.append_eq_nil.mp hnil with ⟨_, h2⟩
    exact List.cons_ne_nil _ _ h2

set_option maxHeartbeats 2000000 in
/-- C9: each of the four handlers behaves identically when its name
argument is lowercased up front (for register and transfer, the part
of the input before the first `=`; for unregister and lookup, the
whole input), because the handler lowercases the name itself before
validating or using it.  In particular a name with uppercase ascii
letters is accepted and processed exactly like its lowercase form. -/
theorem lowercase_name_transparent (env : Env) (cfg : Config) :
    handleRegister env
        { cfg with bnsRegister := lowerNamePart cfg.bnsRegister }
      = handleRegister env cfg ∧
    handleTransfer env
        { cfg with bnsTransfer := lowerNamePart cfg.bnsTransfer }
      = handleTransfer env cfg ∧
    handleUnregister env
        { cfg with bnsUnregister := asciiToLower cfg.bnsUnregister }
      = handleUnregister env cfg ∧
    handleLookup env { cfg with bnsLookup := asciiToLower cfg.bnsLookup }
      = handleLookup env cfg := by
  refine ⟨?_, ?_, ?_, ?_⟩
  · by_cases hreg : cfg.bnsRegister = []
    · have hl : lowerNamePart cfg.bnsRegister = [] := by rw [hreg]; rfl
      rw [handleRegister_empty_input env _ (by simp [hl]),
        handleRegister_empty_input env cfg hreg]
    · have hsp := splitEq_lowerNamePart cfg.bnsRegister
      obtain ⟨p, ps, hs0⟩ : ∃ p ps, splitEq cfg.bnsRegister = p :: ps := by
        cases h2 : splitEq cfg.bnsRegister with
        | nil => exact absurd h2 (splitEq_ne_nil _)
        | cons p ps => exact ⟨p, ps, rfl⟩
      rw [hs0, List.headD_cons, List.tail_cons] at hsp
      simp only [handleRegister, registerCheckAndSend,
        isEmpty_eq_false_of_ne_nil hreg,
        isEmpty_eq_false_of_ne_nil (lowerNamePart_ne_nil hreg),
        hsp, hs0, List.headD_cons, List.length_cons, getD_one_cons,
        asciiToLower_idem]
  · by_cases htr : (splitEq cfg.bnsTransfer).length = 2
    · have hsp := splitEq_lowerNamePart cfg.bnsTransfer
      obtain ⟨p, ps, hs0⟩ : ∃ p ps, splitEq cfg.bnsTransfer = p :: ps := by
        cases h2 : splitEq cfg.bnsTransfer with
        | nil => exact absurd h2 (splitEq_ne_nil _)
        | cons p ps => exact ⟨p, ps, rfl⟩
      rw [hs0, List.headD_cons, List.tail_cons] at hsp
      simp only [handleTransfer, hsp, hs0, List.headD_cons,
        List.length_cons, getD_one_cons, asciiToLower_idem]
    · have hsp := splitEq_lowerNamePart cfg.bnsTransfer
      have hlen : (splitEq (lowerNamePart cfg.bnsTransfer)).length
          = (splitEq cfg.bnsTransfer).length := by
        rw [hsp]
        cases h2 : splitEq cfg.bnsTransfer with
        | nil => exact absurd h2 (splitEq_ne_nil _)
        | cons p ps => simp
      rw [handleTransfer_no_pair env _ (by simpa [hlen] using htr),
        handleTransfer_no_pair env cfg htr]
  · by_cases hun : cfg.bnsUnregister = []
    · rw [handleUnregister_empty_input env _ (by simp [hun, asciiToLower]),
        handleUnregister_empty_input env cfg hun]
    · simp only [handleUnregister, isEmpty_eq_false_of_ne_nil hun,
        isEmpty_eq_false_of_ne_nil (asciiToLower_ne_nil hun),
        asciiToLower_idem]
  · simp only [handleLookup, asciiToLower_idem]
